import Mathlib

/-!
Verification of the Cloudfloe query-execution gateway (`backend/main.py`)
against its natural-language specification.  The Python source is embedded
shallowly: pure string manipulation becomes Lean functions on `List Char` /
`String`, engine and network effects become explicit outcome parameters
(`Except`), and HTTP-style failures become explicit result values.
-/

namespace Cloudfloe

/-- ASCII lower-casing of one character, as Python `re.IGNORECASE` folds
ASCII letters (non-ASCII case folding is outside the embedded fragment). -/
def pyLower (c : Char) : Char :=
  if 'A' ≤ c ∧ c ≤ 'Z' then Char.ofNat (c.toNat + 32) else c

/-- ASCII upper-casing of one character, as Python `str.upper` acts on the
ASCII letters used by the gateway (non-ASCII case mapping not modelled). -/
def pyUpperChar (c : Char) : Char :=
  if 'a' ≤ c ∧ c ≤ 'z' then Char.ofNat (c.toNat - 32) else c

/-- `str.upper` over a character list. -/
def listUpper (l : List Char) : List Char := l.map pyUpperChar

/-- Python whitespace characters stripped by `str.strip()` (ASCII set). -/
def pyIsSpace (c : Char) : Bool :=
  c = ' ' || c = '\t' || c = '\n' || c = '\x0d' || c = '\x0b' || c = '\x0c'

/-- `str.strip()`: drop leading and trailing whitespace. -/
def pyStripL (l : List Char) : List Char :=
  ((l.dropWhile pyIsSpace).reverse.dropWhile pyIsSpace).reverse

/-- Decidable prefix test on character lists. -/
def isPrefixCL : List Char → List Char → Bool
  | [], _ => true
  | _ :: _, [] => false
  | p :: ps, c :: cs => p = c && isPrefixCL ps cs

/-- Python's `needle in hay` substring test. -/
def containsSub (needle : List Char) : List Char → Bool
  | [] => isPrefixCL needle []
  | c :: rest => isPrefixCL needle (c :: rest) || containsSub needle rest

/-- The single-quote character of the interpolated SQL statements. -/
def sqChar : Char := '\''

example : containsSub "LIM".data "xLIMx".data = true := by decide

/-- Python `str.strip` on `String`. -/
def pyStrip (s : String) : String := String.mk (pyStripL s.data)

example : pyStrip "  a b\n" = "a b" := by decide

/-- Suffix test on character lists (Python `str.endswith`). -/
def endsWithL (suf l : List Char) : Bool := isPrefixCL suf.reverse l.reverse

/-- Python slicing `s[:-n]`: drop the last `n` characters. -/
def dropRightL (n : Nat) (l : List Char) : List Char := l.take (l.length - n)

/-- Python `str.rstrip(bad)`: drop trailing characters drawn from `bad`. -/
def pyRstripSet (bad : List Char) (l : List Char) : List Char :=
  (l.reverse.dropWhile (fun c => bad.contains c)).reverse

example : pyRstripSet ['/', '*'] "a/b/**".data = "a/b".data := by decide

/-- `ConnectionConfig` of `main.py` (pydantic model).  Optional fields keep
Python's `None` as `Option.none`; `nspace` embeds the `namespace` field
(`namespace` is a Lean keyword). -/
structure ConnectionConfig where
  storageType : String
  endpoint : String
  accessKey : String
  secretKey : String
  sessionToken : Option String := none
  region : String := "us-east-1"
  catalogType : Option String := some "none"
  catalogEndpoint : Option String := none
  nspace : Option String := some "default"
  tablePath : Option String := none
deriving DecidableEq

/-- Python truthiness of an optional string (`None` and `""` are falsy). -/
def pyTruthyOpt : Option String → Bool
  | none => false
  | some s => s ≠ ""

/-- Python f-string rendering of an optional string (`None` prints as
`"None"`), as used for `config.namespace` in the catalog table reference. -/
def pyStrOpt : Option String → String
  | none => "None"
  | some s => s

/-- `QueryStats` of `main.py`.  `executionTimeMs` (wall clock time) and
`bytesScanned` (a `len(str(rows))*2` display estimate) are environment
dependent; the embedding keeps the fields but does not model their values. -/
structure QueryStats where
  executionTimeMs : Nat
  bytesScanned : Nat
  rowsReturned : Nat
deriving DecidableEq

/-- `QueryResponse` of `main.py`; row scalars are embedded as `Int`. -/
structure QueryResponse where
  columns : List String
  rows : List (List Int)
  stats : QueryStats
  truncated : Bool
deriving DecidableEq

/-! ## Safety filter (`POST /api/query` handler, lines 477-500) -/

/-- The deny-list of `execute_query`'s handler (`dangerous_keywords`). -/
def dangerous_keywords : List String :=
  ["DELETE", "DROP", "INSERT", "UPDATE", "CREATE", "ALTER"]

/-- The first deny-listed keyword found as a substring of `sql.upper()`,
exactly as the handler's `for keyword in dangerous_keywords` loop scans. -/
def first_dangerous_keyword (sql : String) : Option String :=
  dangerous_keywords.find? (fun kw => containsSub kw.data (listUpper sql.data))

/-- Outcome of the `POST /api/query` handler: an HTTP-style rejection
(status code and detail) or a successful response. -/
inductive HandlerOutcome where
  | rejected (status : Nat) (detail : String)
  | ok (resp : QueryResponse)
deriving DecidableEq

/-! ## Row-limit injection (`DuckDBManager._limit_query`, lines 372-384) -/

/-- `_limit_query`: strip whitespace, drop one trailing semicolon, then
append a LIMIT clause unless `"LIMIT"` already occurs (case-insensitively)
in the query text. -/
def limit_query (sql : String) (limit : Int) : String :=
  let s1 := pyStripL sql.data
  let s2 := if endsWithL [';'] s1 then dropRightL 1 s1 else s1
  if containsSub "LIMIT".data (listUpper s2) then String.mk s2
  else String.mk s2 ++ " LIMIT " ++ toString limit

/-- The normalization `_limit_query` applies before its LIMIT check:
trim whitespace, drop a single trailing semicolon. -/
def normalize_sql (sql : String) : String :=
  let s1 := pyStripL sql.data
  String.mk (if endsWithL [';'] s1 then dropRightL 1 s1 else s1)

example : limit_query "SELECT 1" 1000 = "SELECT 1 LIMIT 1000" := by decide
example : limit_query " SELECT 1 limit 5; " 1000 = "SELECT 1 limit 5" := by decide

/-! ## Request validation (`QueryRequest.rowLimit`, lines 43-47) -/

/-- Pydantic validation of `QueryRequest.rowLimit`: the field is declared
`Field(default=1000, le=10000)`, so the only constraint is `rowLimit ≤ 10000`. -/
def row_limit_accepted (rowLimit : Int) : Bool := rowLimit ≤ 10000

/-! ## Table validation (`DuckDBManager._validate_iceberg_table`, lines 196-227) -/

/-- Result of `_validate_iceberg_table`: either a raised `HTTPException`
(status, detail) or a returned `{"valid": ..., "warnings": [...]}` dict. -/
inductive ValidationResult where
  | failure (status : Nat) (detail : String)
  | ok (valid : Bool) (warnings : List String)
deriving DecidableEq

/-- The classification test of one `manifest_content` value:
`'DELETE' in str(v).upper()`. -/
def is_delete_manifest (v : String) : Bool :=
  containsSub "DELETE".data (listUpper v.data)

/-- The rejection detail of `_validate_iceberg_table` for delete-bearing
tables. -/
def delete_detail : String :=
  "Table contains row-level deletes which are not supported. This application only supports append-only Iceberg v1/v2 tables. Reading this table may return incorrect data."

/-- `_validate_iceberg_table`.  The engine call
`iceberg_metadata(table_path)` is an effect; its outcome is passed in as
`fetchMeta`: either the list of `manifest_content` values (pandas `.unique()`
is embedded via `dedup`) or the exception text.  A fetch exception is caught
and degraded to `valid=True` plus a warning; a delete-classified entry
raises `HTTPException(400, ...)`, which is re-raised past the handler. -/
def validate_iceberg_table (fetchMeta : Except String (List String)) :
    ValidationResult :=
  match fetchMeta with
  | .error e => .ok true ["Validation incomplete: " ++ e]
  | .ok vals =>
    if vals.dedup.any is_delete_manifest then .failure 400 delete_detail
    else .ok true []

/-! ## Catalog attachment (`DuckDBManager._attach_iceberg_catalog`, lines 165-194) -/

/-- Result of `_attach_iceberg_catalog`: a raised `HTTPException`, the pair
of statements executed (secret creation, then `ATTACH`), or a no-op when no
REST catalog is configured. -/
inductive AttachResult where
  | httpError (status : Nat) (detail : String)
  | attached (secretStmt attachStmt : String)
  | skipped
deriving DecidableEq

/-- `_attach_iceberg_catalog`: on `catalogType == "rest"` it requires a
truthy `catalogEndpoint` (else `HTTPException(400, ...)`) and only then
creates the catalog secret and attaches the catalog. -/
def attach_iceberg_catalog (cfg : ConnectionConfig) : AttachResult :=
  if cfg.catalogType = some "rest" then
    if pyTruthyOpt cfg.catalogEndpoint then
      .attached
        ("CREATE SECRET iceberg_catalog_secret ( TYPE iceberg, TOKEN '" ++
          cfg.accessKey ++ ":" ++ cfg.secretKey ++ "' )")
        ("ATTACH '" ++ pyStrOpt cfg.nspace ++ "' AS iceberg_catalog ( TYPE iceberg, SECRET iceberg_catalog_secret, ENDPOINT '" ++
          pyStrOpt cfg.catalogEndpoint ++ "' )")
    else .httpError 400 "catalogEndpoint required for REST catalog"
  else .skipped

/-! ## Credential application (`DuckDBManager._apply_s3_config`, lines 147-154) -/

/-- A statement handed to `connection.execute`: the statement text plus the
bound parameter list (the second argument of `execute`). -/
structure SqlStmt where
  text : String
  params : List String
deriving DecidableEq

/-- The credential-setting statements of `_apply_s3_config` (lines 147-154):
access key and secret key go through parameter binding (`?` placeholder,
value in the parameter list); a truthy session token is interpolated into
the statement text by an f-string. -/
def credential_stmts (cfg : ConnectionConfig) : List SqlStmt :=
  [ { text := "SET s3_access_key_id=?", params := [cfg.accessKey] },
    { text := "SET s3_secret_access_key=?", params := [cfg.secretKey] } ] ++
  (if pyTruthyOpt cfg.sessionToken then
    [ { text := "SET s3_session_token='" ++ pyStrOpt cfg.sessionToken ++ "'",
        params := [] } ]
   else [])

/-- Parser for a SQL single-quoted string literal body, with `''` as the
escaped quote; input starts after the opening quote.  Returns the literal's
value and the text remaining after the closing quote. -/
def parseQuoted : List Char → Option (List Char × List Char)
  | [] => none
  | c :: rest =>
    if c = sqChar then
      match rest with
      | [] => some ([], [])
      | c2 :: rest2 =>
        if c2 = sqChar then
          match parseQuoted rest2 with
          | some (v, r) => some (sqChar :: v, r)
          | none => none
        else some ([], rest)
    else
      match parseQuoted rest with
      | some (v, r) => some (c :: v, r)
      | none => none

/-- Drop a required prefix, or fail. -/
def dropPrefixCL : List Char → List Char → Option (List Char)
  | [], l => some l
  | _ :: _, [] => none
  | p :: ps, c :: cs => if p = c then dropPrefixCL ps cs else none

/-- Formalization of "the fixed statement with the token in value position":
the statement text must be exactly `SET s3_session_token=` followed by one
single-quoted SQL string literal and nothing else; the result is the value
that literal denotes. -/
def parse_set_session_token (stmt : String) : Option String :=
  match dropPrefixCL "SET s3_session_token='".data stmt.data with
  | none => none
  | some rest =>
    match parseQuoted rest with
    | some (v, []) => some (String.mk v)
    | _ => none

example : parse_set_session_token "SET s3_session_token='abc'" = some "abc" := by decide
example : parse_set_session_token "SET s3_session_token='a''b'" = some "a'b" := by decide
example : parse_set_session_token "SET s3_session_token='a'b'" = none := by decide

/-! ## Connection test (`DuckDBManager.test_connection`, lines 268-312) -/

/-- The table-path cleanup at the start of `test_connection` (lines 271-281):
`rstrip('/')` when the path ends with a slash, then removal of a
`/metadata` suffix (`[:-9]`) when present. -/
def normalize_table_path (p : String) : String :=
  let l1 := if endsWithL ['/'] p.data then pyRstripSet ['/'] p.data else p.data
  if endsWithL "/metadata".data l1 then String.mk (dropRightL 9 l1)
  else String.mk l1

/-- The in-place config mutation performed by `test_connection` before the
session is built: a truthy `tablePath` is normalized on the caller's config
object. -/
def test_connection_config (cfg : ConnectionConfig) : ConnectionConfig :=
  match cfg.tablePath with
  | some p => if p = "" then cfg
      else { cfg with tablePath := some (normalize_table_path p) }
  | none => cfg

/-- `test_connection`.  Session building (`_apply_s3_config`, including
catalog attachment) and the synthetic probe query are effects; their
outcomes are passed in.  The whole body is wrapped in `try/except`, so every
outcome maps to a `Bool`; the function also returns the (mutated) config
visible to the caller afterwards.  The best-effort `version-hint.text` read
has its own inner `try/except` and cannot affect the result. -/
def test_connection (cfg : ConnectionConfig)
    (buildOutcome : Except String Unit) (probeOutcome : Except String Unit) :
    Bool × ConnectionConfig :=
  let cfg2 := test_connection_config cfg
  match buildOutcome with
  | .error _ => (false, cfg2)
  | .ok _ =>
    match probeOutcome with
    | .error _ => (false, cfg2)
    | .ok _ => (true, cfg2)

/-! ## Scan-reference rewriting (`DuckDBManager._convert_to_iceberg_query`,
lines 229-266)

The Python code applies `re.sub` with the pattern

  `read_parquet\(` quote `s3://([^/]+)/([^'"]+?)/?\*?\*?/?\*?\.parquet` quote `\)`

under `re.IGNORECASE`, where quote is the class of `'` and `"`.  The
embedding implements exactly this pattern's backtracking search: literals
are matched case-insensitively, group 1 (`[^/]+` then `/`) is the maximal
run of non-slash characters (shortening it can never make the following
literal `/` match), group 2 is lazy, and the five optional one-character
elements are greedy. -/

/-- Pattern literal `read_parquet(`, lower-cased. -/
def rpPat : List Char :=
  ['r', 'e', 'a', 'd', '_', 'p', 'a', 'r', 'q', 'u', 'e', 't', '(']

/-- Pattern literal `s3://`, lower-cased. -/
def s3Pat : List Char := ['s', '3', ':', '/', '/']

/-- Pattern literal `.parquet`, lower-cased. -/
def pqPat : List Char := ['.', 'p', 'a', 'r', 'q', 'u', 'e', 't']

/-- Membership in the regex's quote class `['"]`. -/
def isQuote (c : Char) : Bool := c = sqChar || c = '"'

/-- Case-insensitive literal match: `pat` is lower-case; on success return
the input remaining after the literal. -/
def matchCI : List Char → List Char → Option (List Char)
  | [], l => some l
  | _ :: _, [] => none
  | p :: ps, c :: cs => if pyLower c = p then matchCI ps cs else none

/-- The tail literal `\.parquet['\"]\)` of the pattern. -/
def finishMatch (l : List Char) : Option (List Char) :=
  match matchCI pqPat l with
  | none => none
  | some (q :: c :: r3) => if isQuote q && (c = ')') then some r3 else none
  | some _ => none

/-- One greedy optional character (regex `c?`): try consuming `c` first,
fall back to not consuming it. -/
def optChar (c : Char) (k : List Char → Option (List Char))
    (l : List Char) : Option (List Char) :=
  match l with
  | x :: xs =>
    if x = c then
      match k xs with
      | some r => some r
      | none => k l
    else k l
  | [] => k l

/-- The optional glob tail `/?\*?\*?/?\*?` followed by `\.parquet['\"]\)`. -/
def tailMatch : List Char → Option (List Char) :=
  optChar '/' (optChar '*' (optChar '*' (optChar '/' (optChar '*' finishMatch))))

/-- Lazy group 2 (`([^'\"]+?)`): grow the group one non-quote character at
a time, attempting the pattern tail after each extension; `acc` holds the
group read so far, reversed. -/
def findGroup2 (acc : List Char) : List Char → Option (List Char × List Char)
  | [] => none
  | c :: rest =>
    if isQuote c then none
    else
      match tailMatch rest with
      | some r => some ((c :: acc).reverse, r)
      | none => findGroup2 (c :: acc) rest

/-- Group 1 (`([^/]+)` followed by `/`): the maximal non-slash run, which
must be non-empty and followed by a slash. -/
def takeBucket (l : List Char) : Option (List Char × List Char) :=
  match l.takeWhile (fun c => c ≠ '/'), l.dropWhile (fun c => c ≠ '/') with
  | [], _ => none
  | b, '/' :: r => some (b, r)
  | _, _ => none

/-- Attempt the whole pattern at the head of `l`; on success return
(group 1, group 2, text after the match). -/
def matchParquetAt (l : List Char) : Option (List Char × List Char × List Char) :=
  match matchCI rpPat l with
  | none => none
  | some r1 =>
    match r1 with
    | [] => none
    | q1 :: r2 =>
      if isQuote q1 then
        match matchCI s3Pat r2 with
        | none => none
        | some r3 =>
          match takeBucket r3 with
          | none => none
          | some (b, r4) =>
            match findGroup2 [] r4 with
            | none => none
            | some (g2, rest) => some (b, g2, rest)
      else none

/-- The last `/`-separated segment of a path (`path.split('/')[-1]`). -/
def lastSegmentL (l : List Char) : List Char :=
  (l.reverse.takeWhile (fun c => c ≠ '/')).reverse

/-- The replacement function `replace_with_iceberg`: group 2 is
`rstrip('/*')`-ed, then either a catalog-qualified table reference (final
path segment as table name) or a direct `iceberg_scan` of the bucket+path. -/
def replaceMatch (cfg : ConnectionConfig) (bucket g2 : List Char) : List Char :=
  let path := pyRstripSet ['/', '*'] g2
  if cfg.catalogType = some "rest" then
    "iceberg_catalog.".data ++ (pyStrOpt cfg.nspace).data ++ '.' :: lastSegmentL path
  else
    "iceberg_scan('s3://".data ++ bucket ++ '/' :: path ++ "')".data

/-- The `re.sub` scan: try the pattern at every position, left to right;
on a match, emit the replacement and resume after the matched text
(non-overlapping), else emit the character and move one position right.
`fuel` only bounds the recursion; `l.length` is always enough. -/
def scanFuel (cfg : ConnectionConfig) : Nat → List Char → List Char
  | 0, l => l
  | _ + 1, [] => []
  | fuel + 1, c :: rest =>
    match matchParquetAt (c :: rest) with
    | some (b, p, rest1) =>
      replaceMatch cfg b p ++ scanFuel cfg fuel (rest.drop (rest.length - rest1.length))
    | none => c :: scanFuel cfg fuel rest

/-- `_convert_to_iceberg_query`. -/
def convert_to_iceberg_query (cfg : ConnectionConfig) (sql : String) : String :=
  String.mk (scanFuel cfg sql.data.length sql.data)

/-! ## Execution orchestrator (`DuckDBManager.execute_query`, lines 314-370) -/

/-- What the engine returns for a query: DuckDB's column descriptions and
the fetched rows (scalars embedded as `Int`). -/
structure EngineResult where
  columns : List String
  rows : List (List Int)
deriving DecidableEq

instance {ε α : Type} [DecidableEq ε] [DecidableEq α] : DecidableEq (Except ε α) :=
  fun a b =>
  match a, b with
  | .error e1, .error e2 =>
    if h : e1 = e2 then isTrue (by rw [h])
    else isFalse (by intro hc; cases hc; exact h rfl)
  | .error _, .ok _ => isFalse (by intro hc; cases hc)
  | .ok _, .error _ => isFalse (by intro hc; cases hc)
  | .ok a1, .ok a2 =>
    if h : a1 = a2 then isTrue (by rw [h])
    else isFalse (by intro hc; cases hc; exact h rfl)

/-- `execute_query`.  Session building (`_apply_s3_config`), the metadata
fetch used by `_validate_iceberg_table`, and the engine run are effects,
passed in as outcomes/oracles.  Every failure surfaces as an
`HTTPException`-style `(status, detail)` pair; timing and the
`len(str(rows))*2` size estimate are environment dependent and left at `0`.
The second component is the configuration object after the call:
`execute_query` never writes to it. -/
def execute_query (sql : String) (cfg : ConnectionConfig) (row_limit : Int)
    (buildOutcome : Except String Unit)
    (fetchMeta : Except String (List String))
    (run : String → Except String EngineResult) :
    Except (Nat × String) QueryResponse × ConnectionConfig :=
  let res : Except (Nat × String) QueryResponse :=
    match buildOutcome with
    | .error e => .error (400, "Invalid S3 configuration: " ++ e)
    | .ok _ =>
      match (if pyTruthyOpt cfg.tablePath then
              match validate_iceberg_table fetchMeta with
              | .failure s d => some (s, d)
              | .ok _ _ => none
             else none) with
      | some failure => .error failure
      | none =>
        let limited := limit_query sql row_limit
        let converted := convert_to_iceberg_query cfg limited
        match run converted with
        | .error e => .error (400, "Query execution failed: " ++ e)
        | .ok r =>
          .ok { columns := r.columns
                rows := r.rows
                stats := { executionTimeMs := 0, bytesScanned := 0,
                           rowsReturned := r.rows.length }
                truncated := decide ((r.rows.length : Int) ≥ row_limit) }
  (res, cfg)

/-! ## `POST /api/query` handler (lines 477-508) -/

/-- The `POST /api/query` handler.  It first rejects an empty/whitespace
query, then scans for deny-listed keywords, and only then delegates to
`DuckDBManager.execute_query`, abstracted here as `exec` so that rejection
is visibly independent of any execution or session-building behaviour. -/
def api_query (sql : String) (rowLimit : Int) (cfg : ConnectionConfig)
    (exec : String → Int → ConnectionConfig → Except (Nat × String) QueryResponse) :
    HandlerOutcome :=
  if pyStrip sql = "" then .rejected 400 "Empty query"
  else
    match first_dangerous_keyword sql with
    | some kw =>
      .rejected 400 ("Destructive operation '" ++ kw ++ "' not allowed")
    | none =>
      match exec sql rowLimit cfg with
      | .error (s, d) => .rejected s d
      | .ok r => .ok r

/-- The demo connection configuration served by `GET /api/demo/connection`,
used as a concrete configuration in witnesses. -/
def demo_connection : ConnectionConfig :=
  { storageType := "minio", endpoint := "http://localhost:9000",
    accessKey := "cloudfloe", secretKey := "cloudfloe123", region := "us-east-1" }

/-!
# Theorems
-/

/-- Claim C7 (counterexample): the gateway accepts `rowLimit = 0`, which is
not strictly greater than 0, so the claimed invariant `rowLimit ∈ (0, 10000]`
does not hold for every accepted request. -/
theorem row_limit_zero_accepted :
    row_limit_accepted 0 = true ∧ ¬ ((0 : Int) > 0) := by decide

/-- Claim C7 (amended): for every query request accepted by the gateway, the
row limit is at most 10000; pydantic declares no lower bound, so non-positive
limits are accepted as well (the bound is exactly `rowLimit ≤ 10000`). -/
theorem row_limit_upper_bound (n : Int) :
    row_limit_accepted n = true ↔ n ≤ 10000 := by
  simp [row_limit_accepted]

/-- Claim C8: for every `ConnectionConfig` whose catalog type is `rest` but
whose catalog endpoint is absent (Python-falsy: `None` or empty), building
the session fails inside `_attach_iceberg_catalog` with
`HTTPException(400, "catalogEndpoint required for REST catalog")`, and in
particular no catalog-attachment statement is ever produced. -/
theorem rest_catalog_requires_endpoint (cfg : ConnectionConfig)
    (hrest : cfg.catalogType = some "rest")
    (habs : cfg.catalogEndpoint = none ∨ cfg.catalogEndpoint = some "") :
    attach_iceberg_catalog cfg =
      .httpError 400 "catalogEndpoint required for REST catalog" ∧
    ∀ s a, attach_iceberg_catalog cfg ≠ .attached s a := by
  have hfalse : pyTruthyOpt cfg.catalogEndpoint = false := by
    rcases habs with h | h <;> simp [pyTruthyOpt, h]
  constructor
  · simp [attach_iceberg_catalog, hrest, hfalse]
  · intro s a
    simp [attach_iceberg_catalog, hrest, hfalse]

/-- Claim C8 witness. -/
theorem rest_catalog_requires_endpoint_witness :
    ({ demo_connection with catalogType := some "rest" } : ConnectionConfig).catalogType = some "rest" ∧
    (({ demo_connection with catalogType := some "rest" } : ConnectionConfig).catalogEndpoint = none ∨
      ({ demo_connection with catalogType := some "rest" } : ConnectionConfig).catalogEndpoint = some "") ∧
    attach_iceberg_catalog { demo_connection with catalogType := some "rest" } =
      .httpError 400 "catalogEndpoint required for REST catalog" :=
  ⟨by decide, Or.inl (by decide),
    (rest_catalog_requires_endpoint { demo_connection with catalogType := some "rest" }
      (by decide) (Or.inl (by decide))).1⟩

/-- Claim C5: a fetched manifest list containing at least one
delete-classified entry makes `_validate_iceberg_table` raise the hard
`HTTPException(400, ...)` (never a warning), while a metadata fetch failure
is degraded to `valid=True` with a non-empty warnings list. -/
theorem validate_iceberg_table_policy :
    (∀ vals : List String, (∃ v ∈ vals, is_delete_manifest v = true) →
      validate_iceberg_table (.ok vals) = .failure 400 delete_detail) ∧
    (∀ e : String, ∃ w, validate_iceberg_table (.error e) = .ok true w ∧ w ≠ []) := by
  constructor
  · intro vals hv
    have : vals.dedup.any is_delete_manifest = true := by
      apply Bool.eq_iff_iff.mpr
      simp only [List.any_eq_true, List.mem_dedup]
      exact ⟨fun _ => trivial, fun _ => hv⟩
    simp [validate_iceberg_table, this]
  · intro e
    exact ⟨["Validation incomplete: " ++ e], rfl, by simp⟩

/-- Claim C5 witness. -/
theorem validate_iceberg_table_policy_witness :
    ((∃ v ∈ ["DATA", "POSITION_DELETES"], is_delete_manifest v = true) ∧
      validate_iceberg_table (.ok ["DATA", "POSITION_DELETES"]) =
        .failure 400 delete_detail) ∧
    (∃ w, validate_iceberg_table (.error "403 Forbidden") = .ok true w ∧ w ≠ []) :=
  ⟨⟨by decide, validate_iceberg_table_policy.1 ["DATA", "POSITION_DELETES"] (by decide)⟩,
    validate_iceberg_table_policy.2 "403 Forbidden"⟩

/-- Claim C6: `test_connection` always returns a boolean (it is total on
every configuration and every build/probe outcome), and it returns `true`
exactly when both the session build and the synthetic probe complete
without an exception; any exception outcome is swallowed into `false`. -/
theorem test_connection_boolean (cfg : ConnectionConfig)
    (b p : Except String Unit) :
    (test_connection cfg b p).1 = true ↔ b.isOk = true ∧ p.isOk = true := by
  cases b <;> cases p <;> simp [test_connection, Except.isOk, Except.toBool]

/-- Claim C10: `test_connection` normalizes a truthy `tablePath` in place —
trailing slashes are stripped when the path ends with `/`, then a trailing
`/metadata` suffix is removed — and the result is visible on the caller's
configuration object; a path with neither suffix is left unchanged; and
`execute_query` performs no mutation of the configuration at all. -/
theorem test_connection_mutates_table_path (cfg : ConnectionConfig)
    (p : String) (b pr : Except String Unit)
    (hp : cfg.tablePath = some p) (hne : p ≠ "") :
    (test_connection cfg b pr).2.tablePath = some (normalize_table_path p) ∧
    (endsWithL ['/'] p.data = false → endsWithL "/metadata".data p.data = false →
      (test_connection cfg b pr).2.tablePath = some p) ∧
    (∀ sql rl bO fm run, (execute_query sql cfg rl bO fm run).2 = cfg) := by
  have hbase : (test_connection cfg b pr).2 = test_connection_config cfg := by
    cases b <;> cases pr <;> rfl
  have hcfg2 : (test_connection cfg b pr).2.tablePath = some (normalize_table_path p) := by
    rw [hbase]
    simp [test_connection_config, hp, hne]
  refine ⟨hcfg2, fun h1 h2 => ?_, fun sql rl bO fm run => rfl⟩
  rw [hcfg2]
  have h2l : endsWithL ['/', 'm', 'e', 't', 'a', 'd', 'a', 't', 'a'] p.data = false := h2
  have hnp : normalize_table_path p = p := by
    simp [normalize_table_path, h1, h2l]
  rw [hnp]

/-- Claim C10 witness. -/
theorem test_connection_mutates_table_path_witness :
    ({ demo_connection with tablePath := some "s3://m/t" } : ConnectionConfig).tablePath = some "s3://m/t" ∧
    ("s3://m/t" : String) ≠ "" ∧
    endsWithL ['/'] "s3://m/t".data = false ∧
    endsWithL "/metadata".data "s3://m/t".data = false ∧
    (test_connection { demo_connection with tablePath := some "s3://m/t" } (.ok ()) (.ok ())).2.tablePath =
      some "s3://m/t" :=
  ⟨by decide, by decide, by decide, by decide,
    (test_connection_mutates_table_path
        { demo_connection with tablePath := some "s3://m/t" } "s3://m/t"
        (.ok ()) (.ok ()) (by decide) (by decide)).2.1 (by decide) (by decide)⟩

/-- Claim C9: the access key and secret key are applied through parameter
binding — the statement text is a fixed string with a `?` placeholder and
the value travels verbatim in the parameter list — while a present session
token is interpolated into the statement text itself, and for some token
containing a single quote the resulting text is not the fixed statement
with the token in value position (the token escapes the string literal). -/
theorem credential_binding_vs_interpolation (cfg : ConnectionConfig) :
    ((credential_stmts cfg).take 2 =
      [{ text := "SET s3_access_key_id=?", params := [cfg.accessKey] },
       { text := "SET s3_secret_access_key=?", params := [cfg.secretKey] }]) ∧
    (∀ t : String, t ≠ "" →
      ({ text := "SET s3_session_token='" ++ t ++ "'", params := [] } : SqlStmt) ∈
        credential_stmts { cfg with sessionToken := some t }) ∧
    (∃ t : String, sqChar ∈ t.data ∧
      parse_set_session_token ("SET s3_session_token='" ++ t ++ "'") ≠ some t) := by
  refine ⟨rfl, fun t ht => ?_, ⟨"a'b", by decide, by decide⟩⟩
  simp [credential_stmts, pyTruthyOpt, pyStrOpt, ht]

/-- Claim C9 witness. -/
theorem credential_binding_vs_interpolation_witness :
    ((credential_stmts demo_connection).take 2 =
      [{ text := "SET s3_access_key_id=?",
         params := [demo_connection.accessKey] },
       { text := "SET s3_secret_access_key=?",
         params := [demo_connection.secretKey] }]) ∧
    (("tok" : String) ≠ "" ∧
      ({ text := "SET s3_session_token='" ++ "tok" ++ "'", params := [] } : SqlStmt) ∈
        credential_stmts { demo_connection with sessionToken := some "tok" }) ∧
    (∃ t : String, sqChar ∈ t.data ∧
      parse_set_session_token ("SET s3_session_token='" ++ t ++ "'") ≠ some t) :=
  ⟨(credential_binding_vs_interpolation demo_connection).1,
   ⟨by decide,
    (credential_binding_vs_interpolation demo_connection).2.1 "tok" (by decide)⟩,
   (credential_binding_vs_interpolation demo_connection).2.2⟩

/-- Claim C4 (counterexample): a query that already contains a LIMIT clause
is not always returned unchanged — `_limit_query` strips the trailing
semicolon (and surrounding whitespace) first. -/
theorem limit_query_changes_limited_query :
    containsSub "LIMIT".data (listUpper "SELECT 1 LIMIT 2;".data) = true ∧
    limit_query "SELECT 1 LIMIT 2;" 1000 ≠ "SELECT 1 LIMIT 2;" ∧
    limit_query "SELECT 1 LIMIT 2;" 1000 = "SELECT 1 LIMIT 2" := by
  refine ⟨by decide, by decide, by decide⟩

/-- Claim C4 (amended): `_limit_query` first normalizes every query —
trimming whitespace and dropping a single trailing semicolon — and then:
if the normalized text contains `LIMIT` case-insensitively it is returned
normalized (so already-trimmed, semicolon-free queries with a limit clause
are returned unchanged), otherwise a ` LIMIT <cap>` clause is appended to
the normalized text. -/
theorem limit_query_spec (sql : String) (n : Int) :
    (containsSub "LIMIT".data (listUpper (normalize_sql sql).data) = true →
      limit_query sql n = normalize_sql sql) ∧
    (containsSub "LIMIT".data (listUpper (normalize_sql sql).data) = false →
      limit_query sql n = normalize_sql sql ++ " LIMIT " ++ toString n) ∧
    (pyStripL sql.data = sql.data → endsWithL [';'] sql.data = false →
      containsSub "LIMIT".data (listUpper sql.data) = true →
      limit_query sql n = sql) := by
  have hbridge : limit_query sql n =
      if containsSub "LIMIT".data (listUpper (normalize_sql sql).data) then
        normalize_sql sql
      else normalize_sql sql ++ " LIMIT " ++ toString n := rfl
  refine ⟨?_, ?_, ?_⟩
  · intro h
    rw [hbridge, h]
    simp
  · intro h
    rw [hbridge, h]
    simp
  · intro hstrip hsemi hlim
    have hns : normalize_sql sql = sql := by
      simp only [normalize_sql]
      rw [hstrip, hsemi]
      rfl
    have hlim2 : containsSub "LIMIT".data (listUpper (normalize_sql sql).data) = true := by
      rw [hns]
      exact hlim
    rw [hbridge, hlim2, hns]
    simp

/-- Claim C4 (amended) witness. -/
theorem limit_query_spec_witness :
    (containsSub "LIMIT".data (listUpper (normalize_sql "SELECT 1 LIMIT 2;").data) = true ∧
      limit_query "SELECT 1 LIMIT 2;" 1000 = normalize_sql "SELECT 1 LIMIT 2;") ∧
    (containsSub "LIMIT".data (listUpper (normalize_sql "SELECT 1").data) = false ∧
      limit_query "SELECT 1" 1000 = normalize_sql "SELECT 1" ++ " LIMIT " ++ toString (1000 : Int)) ∧
    (pyStripL "SELECT 1 LIMIT 2".data = "SELECT 1 LIMIT 2".data ∧
      endsWithL [';'] "SELECT 1 LIMIT 2".data = false ∧
      containsSub "LIMIT".data (listUpper "SELECT 1 LIMIT 2".data) = true ∧
      limit_query "SELECT 1 LIMIT 2" 1000 = "SELECT 1 LIMIT 2") :=
  ⟨⟨by decide, (limit_query_spec "SELECT 1 LIMIT 2;" 1000).1 (by decide)⟩,
   ⟨by decide, (limit_query_spec "SELECT 1" 1000).2.1 (by decide)⟩,
   ⟨by decide, by decide, by decide,
     (limit_query_spec "SELECT 1 LIMIT 2" 1000).2.2 (by decide) (by decide) (by decide)⟩⟩

/-- Claim C2: an empty or whitespace-only query is rejected with the
distinct `"Empty query"` error (this check runs first, so it wins over the
deny-list); otherwise a query containing any deny-listed keyword as a
case-insensitive substring is rejected with a 400 reporting a matched
keyword.  Both rejections hold for every executor `exec`, so no session is
built and no execution is attempted. -/
theorem api_query_safety_filter (sql : String) (rl : Int) (cfg : ConnectionConfig)
    (exec : String → Int → ConnectionConfig → Except (Nat × String) QueryResponse) :
    (pyStrip sql = "" → api_query sql rl cfg exec = .rejected 400 "Empty query") ∧
    (pyStrip sql ≠ "" →
      (∃ kw ∈ dangerous_keywords, containsSub kw.data (listUpper sql.data) = true) →
      ∃ kw ∈ dangerous_keywords, containsSub kw.data (listUpper sql.data) = true ∧
        api_query sql rl cfg exec =
          .rejected 400 ("Destructive operation '" ++ kw ++ "' not allowed")) := by
  constructor
  · intro h
    simp [api_query, h]
  · intro hne hex
    have hsome : (first_dangerous_keyword sql).isSome := by
      rw [first_dangerous_keyword, List.find?_isSome]
      exact hex
    obtain ⟨kw, hkw⟩ := Option.isSome_iff_exists.mp hsome
    have hkw2 : dangerous_keywords.find?
        (fun kw => containsSub kw.data (listUpper sql.data)) = some kw := hkw
    have hmem : kw ∈ dangerous_keywords := List.mem_of_find?_eq_some hkw2
    have hcont : containsSub kw.data (listUpper sql.data) = true := by
      simpa using List.find?_some hkw2
    refine ⟨kw, hmem, hcont, ?_⟩
    unfold api_query
    rw [if_neg hne, hkw]

/-- Claim C2 witness. -/
theorem api_query_safety_filter_witness :
    (pyStrip "   " = "" ∧
      api_query "   " 1000 demo_connection (fun _ _ _ => .error (500, "unused")) =
        .rejected 400 "Empty query") ∧
    (pyStrip "delete FROM t" ≠ "" ∧
      (∃ kw ∈ dangerous_keywords,
        containsSub kw.data (listUpper "delete FROM t".data) = true) ∧
      ∃ kw ∈ dangerous_keywords,
        containsSub kw.data (listUpper "delete FROM t".data) = true ∧
        api_query "delete FROM t" 1000 demo_connection (fun _ _ _ => .error (500, "unused")) =
          .rejected 400 ("Destructive operation '" ++ kw ++ "' not allowed")) :=
  ⟨⟨by decide,
    (api_query_safety_filter "   " 1000 demo_connection
      (fun _ _ _ => .error (500, "unused"))).1 (by decide)⟩,
   ⟨by decide, by decide,
    (api_query_safety_filter "delete FROM t" 1000 demo_connection
      (fun _ _ _ => .error (500, "unused"))).2 (by decide) (by decide)⟩⟩

/-- Claim C1: whenever `execute_query` succeeds, the reported row count is
the number of returned rows and the `truncated` flag is exactly
`rows returned ≥ requested row limit`; in particular a row count equal to
the limit yields `truncated = true` and a strictly smaller count yields
`truncated = false`. -/
theorem execute_query_truncated_flag (sql : String) (cfg : ConnectionConfig)
    (rl : Int) (b : Except String Unit) (fm : Except String (List String))
    (run : String → Except String EngineResult) (resp : QueryResponse)
    (h : (execute_query sql cfg rl b fm run).1 = .ok resp) :
    resp.stats.rowsReturned = resp.rows.length ∧
    (resp.truncated = true ↔ (resp.rows.length : Int) ≥ rl) ∧
    ((resp.rows.length : Int) = rl → resp.truncated = true) ∧
    ((resp.rows.length : Int) < rl → resp.truncated = false) := by
  unfold execute_query at h
  dsimp only at h
  split at h
  · exact absurd h (by simp)
  · split at h
    · exact absurd h (by simp)
    · split at h
      · exact absurd h (by simp)
      · rw [Except.ok.injEq] at h
        subst h
        dsimp only
        refine ⟨rfl, by simp, fun he => ?_, fun hlt => ?_⟩
        · exact decide_eq_true (by omega)
        · exact decide_eq_false (by omega)

/-- Claim C1 witness. -/
theorem execute_query_truncated_flag_witness :
    ((execute_query "SELECT 1" demo_connection 1000 (.ok ()) (.ok [])
        (fun _ => .ok { columns := ["a"], rows := [[1], [2]] })).1 =
      .ok { columns := ["a"], rows := [[1], [2]],
            stats := { executionTimeMs := 0, bytesScanned := 0, rowsReturned := 2 },
            truncated := false }) ∧
    (({ columns := ["a"], rows := [[1], [2]],
        stats := { executionTimeMs := 0, bytesScanned := 0, rowsReturned := 2 },
        truncated := false } : QueryResponse).stats.rowsReturned =
      ({ columns := ["a"], rows := [[1], [2]],
         stats := { executionTimeMs := 0, bytesScanned := 0, rowsReturned := 2 },
         truncated := false } : QueryResponse).rows.length ∧
     (({ columns := ["a"], rows := [[1], [2]],
         stats := { executionTimeMs := 0, bytesScanned := 0, rowsReturned := 2 },
         truncated := false } : QueryResponse).truncated = true ↔
       ((({ columns := ["a"], rows := [[1], [2]],
            stats := { executionTimeMs := 0, bytesScanned := 0, rowsReturned := 2 },
            truncated := false } : QueryResponse).rows.length : Int) ≥ 1000)) ∧
     (((({ columns := ["a"], rows := [[1], [2]],
           stats := { executionTimeMs := 0, bytesScanned := 0, rowsReturned := 2 },
           truncated := false } : QueryResponse).rows.length : Int) = 1000) →
       ({ columns := ["a"], rows := [[1], [2]],
          stats := { executionTimeMs := 0, bytesScanned := 0, rowsReturned := 2 },
          truncated := false } : QueryResponse).truncated = true) ∧
     (((({ columns := ["a"], rows := [[1], [2]],
           stats := { executionTimeMs := 0, bytesScanned := 0, rowsReturned := 2 },
           truncated := false } : QueryResponse).rows.length : Int) < 1000) →
       ({ columns := ["a"], rows := [[1], [2]],
          stats := { executionTimeMs := 0, bytesScanned := 0, rowsReturned := 2 },
          truncated := false } : QueryResponse).truncated = false)) :=
  ⟨by decide,
    execute_query_truncated_flag "SELECT 1" demo_connection 1000 (.ok ()) (.ok [])
      (fun _ => .ok { columns := ["a"], rows := [[1], [2]] }) _ (by decide)⟩

/-! ### Helper lemmas for the rewriter (claim C3) -/

theorem matchCI_of_map (w r : List Char) :
    matchCI (w.map pyLower) (w ++ r) = some r := by
  induction w with
  | nil => rfl
  | cons c w' ih => simp [matchCI, ih]

theorem matchCI_sound :
    ∀ (pat l r : List Char), matchCI pat l = some r →
      ∃ w, l = w ++ r ∧ w.map pyLower = pat := by
  intro pat
  induction pat with
  | nil =>
    intro l r h
    simp only [matchCI, Option.some.injEq] at h
    exact ⟨[], by rw [h]; rfl, rfl⟩
  | cons p ps ih =>
    intro l r h
    cases l with
    | nil => exact absurd h (by simp [matchCI])
    | cons c cs =>
      by_cases hp : pyLower c = p
      · rw [matchCI, if_pos hp] at h
        obtain ⟨w', hcs, hmap⟩ := ih cs r h
        exact ⟨c :: w', by rw [List.cons_append, hcs], by simp [hmap, hp]⟩
      · rw [matchCI, if_neg hp] at h
        exact absurd h (by simp)

theorem takeWhile_dropWhile_append (p : Char → Bool) (b : List Char) (h : Char)
    (t : List Char) (hb : ∀ c ∈ b, p c = true) (hh : p h = false) :
    (b ++ h :: t).takeWhile p = b ∧ (b ++ h :: t).dropWhile p = h :: t := by
  induction b with
  | nil => simp [List.takeWhile_cons, List.dropWhile_cons, hh]
  | cons c b' ih =>
    have hc : p c = true := hb c (List.mem_cons_self c b')
    have ih2 := ih (fun x hx => hb x (List.mem_cons_of_mem c hx))
    simp [List.takeWhile_cons, List.dropWhile_cons, hc, ih2.1, ih2.2]

theorem mem_of_append_eq :
    ∀ (U X Y V : List Char) (q : Char),
      X ++ Y = U ++ q :: V → U.length < X.length → q ∈ X := by
  intro U
  induction U with
  | nil =>
    intro X Y V q h hl
    cases X with
    | nil => simp at hl
    | cons x xs =>
      simp only [List.cons_append, List.nil_append] at h
      have hx : x = q := (List.cons.injEq _ _ _ _).mp h |>.1
      rw [hx]
      exact List.mem_cons_self q xs
  | cons u U' ih =>
    intro X Y V q h hl
    cases X with
    | nil => simp at hl
    | cons x xs =>
      simp only [List.cons_append] at h
      have h2 : xs ++ Y = U' ++ q :: V := ((List.cons.injEq _ _ _ _).mp h).2
      have hl2 : U'.length < xs.length := by
        simp only [List.length_cons] at hl
        omega
      exact List.mem_cons_of_mem x (ih xs Y V q h2 hl2)

theorem optChar_cons_self {c : Char} {k : List Char → Option (List Char)}
    {xs r : List Char} (h : k xs = some r) :
    optChar c k (c :: xs) = some r := by
  simp [optChar, h]

theorem optChar_sound {c : Char} {k : List Char → Option (List Char)}
    {l r : List Char} (h : optChar c k l = some r) :
    k l = some r ∨ ∃ l2, l = c :: l2 ∧ k l2 = some r := by
  cases l with
  | nil => exact Or.inl h
  | cons x xs =>
    simp only [optChar] at h
    by_cases hx : x = c
    · rw [if_pos hx] at h
      cases hk : k xs with
      | some r2 =>
        rw [hk] at h
        simp only [Option.some.injEq] at h
        exact Or.inr ⟨xs, by rw [hx], by rw [hk, h]⟩
      | none =>
        rw [hk] at h
        exact Or.inl h
    · rw [if_neg hx] at h
      exact Or.inl h

theorem finishMatch_of {w r : List Char} {q : Char} (hw : w.map pyLower = pqPat)
    (hq : isQuote q = true) : finishMatch (w ++ q :: ')' :: r) = some r := by
  have h1 : matchCI pqPat (w ++ q :: ')' :: r) = some (q :: ')' :: r) := by
    rw [← hw]
    exact matchCI_of_map w _
  unfold finishMatch
  rw [h1]
  simp [hq]

theorem finishMatch_sound {l r : List Char} (h : finishMatch l = some r) :
    ∃ w q, l = w ++ q :: ')' :: r ∧ w.map pyLower = pqPat ∧ isQuote q = true := by
  unfold finishMatch at h
  cases h1 : matchCI pqPat l with
  | none => rw [h1] at h; simp at h
  | some r1 =>
    rw [h1] at h
    obtain ⟨w, hl, hw⟩ := matchCI_sound pqPat l r1 h1
    match r1, h with
    | q :: c :: r3, h => ?_
    simp only [] at h
    by_cases hqc : isQuote q && (c = ')')
    · rw [if_pos hqc] at h
      simp only [Option.some.injEq] at h
      subst h
      simp only [Bool.and_eq_true, decide_eq_true_eq] at hqc
      exact ⟨w, q, by rw [hl, hqc.2], hw, hqc.1⟩
    · rw [if_neg hqc] at h
      exact absurd h (by simp)

theorem tailMatch_glob {q2 : Char} {post : List Char} (hq2 : isQuote q2 = true) :
    tailMatch ('/' :: '*' :: '*' :: '/' :: '*' :: (pqPat ++ q2 :: ')' :: post)) =
      some post := by
  have hf : finishMatch (pqPat ++ q2 :: ')' :: post) = some post :=
    finishMatch_of (by decide) hq2
  unfold tailMatch
  apply optChar_cons_self
  apply optChar_cons_self
  apply optChar_cons_self
  apply optChar_cons_self
  apply optChar_cons_self
  exact hf

theorem optChar_layer {c : Char} {k : List Char → Option (List Char)} {n : Nat}
    (hk : ∀ {l2 r2 : List Char}, k l2 = some r2 →
      ∃ w m, l2 = w ++ m ∧ w.length ≤ n ∧ finishMatch m = some r2)
    {l r : List Char} (h : optChar c k l = some r) :
    ∃ w m, l = w ++ m ∧ w.length ≤ n + 1 ∧ finishMatch m = some r := by
  rcases optChar_sound h with h1 | ⟨l2, hl2, h1⟩
  · obtain ⟨w, m, he, hw, hf⟩ := hk h1
    exact ⟨w, m, he, Nat.le_succ_of_le hw, hf⟩
  · obtain ⟨w, m, he, hw, hf⟩ := hk h1
    exact ⟨c :: w, m, by rw [hl2, he, List.cons_append], Nat.succ_le_succ hw, hf⟩

theorem tailMatch_sound {l r : List Char} (h : tailMatch l = some r) :
    ∃ w m, l = w ++ m ∧ w.length ≤ 5 ∧ finishMatch m = some r := by
  have k0 : ∀ {l2 r2 : List Char}, finishMatch l2 = some r2 →
      ∃ w m, l2 = w ++ m ∧ w.length ≤ 0 ∧ finishMatch m = some r2 :=
    fun h2 => ⟨[], _, rfl, Nat.le_refl 0, h2⟩
  have k1 := fun {l2 r2 : List Char}
    (h2 : optChar '*' finishMatch l2 = some r2) => optChar_layer k0 h2
  have k2 := fun {l2 r2 : List Char}
    (h2 : optChar '/' (optChar '*' finishMatch) l2 = some r2) => optChar_layer k1 h2
  have k3 := fun {l2 r2 : List Char}
    (h2 : optChar '*' (optChar '/' (optChar '*' finishMatch)) l2 = some r2) =>
      optChar_layer k2 h2
  have k4 := fun {l2 r2 : List Char}
    (h2 : optChar '*' (optChar '*' (optChar '/' (optChar '*' finishMatch))) l2 = some r2) =>
      optChar_layer k3 h2
  unfold tailMatch at h
  exact optChar_layer k4 h

theorem tailMatch_none_inside (P2 : List Char) (hne : P2 ≠ [])
    (hq : ∀ c ∈ P2, isQuote c = false) (q2 : Char) (post : List Char) :
    tailMatch (P2 ++ '/' :: '*' :: '*' :: '/' :: '*' ::
      (pqPat ++ q2 :: ')' :: post)) = none := by
  cases htm : tailMatch (P2 ++ '/' :: '*' :: '*' :: '/' :: '*' ::
      (pqPat ++ q2 :: ')' :: post)) with
  | none => rfl
  | some r =>
    exfalso
    obtain ⟨w, m, hlm, hw5, hf⟩ := tailMatch_sound htm
    obtain ⟨w8, q, hm, hw8, hq8⟩ := finishMatch_sound hf
    have hW8len : w8.length = 8 := by
      have hlen := congrArg List.length hw8
      simpa [pqPat] using hlen
    have hXq : ∀ c ∈ P2 ++ ('/' :: '*' :: '*' :: '/' :: '*' :: pqPat),
        isQuote c = false := by
      intro c hc
      rcases List.mem_append.mp hc with h1 | h2
      · exact hq c h1
      · exact (by decide :
          ∀ c ∈ ('/' :: '*' :: '*' :: '/' :: '*' :: pqPat), isQuote c = false) c h2
    have hbig : (P2 ++ ('/' :: '*' :: '*' :: '/' :: '*' :: pqPat)) ++
        (q2 :: ')' :: post) = (w ++ w8) ++ q :: ')' :: r := by
      calc (P2 ++ ('/' :: '*' :: '*' :: '/' :: '*' :: pqPat)) ++ (q2 :: ')' :: post)
          = P2 ++ '/' :: '*' :: '*' :: '/' :: '*' :: (pqPat ++ q2 :: ')' :: post) := by
            simp [List.append_assoc]
        _ = w ++ m := hlm
        _ = w ++ (w8 ++ q :: ')' :: r) := by rw [hm]
        _ = (w ++ w8) ++ q :: ')' :: r := (List.append_assoc w w8 _).symm
    have hlen2 : (w ++ w8).length <
        (P2 ++ ('/' :: '*' :: '*' :: '/' :: '*' :: pqPat)).length := by
      have hp2 : 0 < P2.length := List.length_pos.mpr hne
      simp only [List.length_append, List.length_cons, hW8len]
      simp [pqPat]
      omega
    have hmemq : q ∈ P2 ++ ('/' :: '*' :: '*' :: '/' :: '*' :: pqPat) :=
      mem_of_append_eq (w ++ w8) _ _ _ q hbig hlen2
    rw [hXq q hmemq] at hq8
    exact Bool.false_ne_true hq8

theorem findGroup2_cons (acc : List Char) (c : Char) (rest : List Char) :
    findGroup2 acc (c :: rest) =
      if isQuote c then none
      else
        match tailMatch rest with
        | some r => some ((c :: acc).reverse, r)
        | none => findGroup2 (c :: acc) rest := rfl

theorem findGroup2_canonical (q2 : Char) (post : List Char)
    (hq2 : isQuote q2 = true) :
    ∀ (P2 acc : List Char), P2 ≠ [] → (∀ c ∈ P2, isQuote c = false) →
      findGroup2 acc (P2 ++ '/' :: '*' :: '*' :: '/' :: '*' ::
        (pqPat ++ q2 :: ')' :: post)) = some (acc.reverse ++ P2, post) := by
  intro P2
  induction P2 with
  | nil => intro acc h _; exact absurd rfl h
  | cons c P2' ih =>
    intro acc _ hqall
    have hc : isQuote c = false := hqall c (List.mem_cons_self c P2')
    cases P2' with
    | nil =>
      have htm : tailMatch ('/' :: '*' :: '*' :: '/' :: '*' ::
          (pqPat ++ q2 :: ')' :: post)) = some post := tailMatch_glob hq2
      simp [findGroup2, hc, htm]
    | cons c2 P2'' =>
      have htm : tailMatch ((c2 :: P2'') ++ '/' :: '*' :: '*' :: '/' :: '*' ::
          (pqPat ++ q2 :: ')' :: post)) = none :=
        tailMatch_none_inside (c2 :: P2'') (by simp)
          (fun x hx => hqall x (List.mem_cons_of_mem c hx)) q2 post
      have ihh := ih (c :: acc) (by simp)
        (fun x hx => hqall x (List.mem_cons_of_mem c hx))
      simp only [List.cons_append] at htm ihh ⊢
      rw [findGroup2_cons, hc]
      simp only [Bool.false_eq_true, if_false]
      rw [htm, ihh]
      simp

theorem takeBucket_canonical (B rest : List Char) (hB : B ≠ [])
    (hBs : ∀ c ∈ B, c ≠ '/') :
    takeBucket (B ++ '/' :: rest) = some (B, rest) := by
  have hb : ∀ c ∈ B, (fun c => (c ≠ '/' : Bool)) c = true :=
    fun c hc => decide_eq_true (hBs c hc)
  have hh : (fun c => (c ≠ '/' : Bool)) '/' = false := by decide
  obtain ⟨htw, hdw⟩ := takeWhile_dropWhile_append _ B '/' rest hb hh
  obtain ⟨b0, B', rfl⟩ : ∃ b0 B', B = b0 :: B' := by
    cases B with
    | nil => exact absurd rfl hB
    | cons x xs => exact ⟨x, xs, rfl⟩
  unfold takeBucket
  rw [htw, hdw]
  rfl

theorem matchParquetAt_canonical (w : List Char) (q1 q2 : Char)
    (B P2 post : List Char)
    (hw : w.map pyLower = rpPat)
    (hq1 : isQuote q1 = true) (hq2 : isQuote q2 = true)
    (hB : B ≠ []) (hBs : ∀ c ∈ B, c ≠ '/')
    (hP : P2 ≠ []) (hPq : ∀ c ∈ P2, isQuote c = false) :
    matchParquetAt (w ++ q1 :: (s3Pat ++ (B ++ '/' :: (P2 ++ '/' :: '*' :: '*' ::
      '/' :: '*' :: (pqPat ++ q2 :: ')' :: post))))) = some (B, P2, post) := by
  have h1 : matchCI rpPat (w ++ q1 :: (s3Pat ++ (B ++ '/' :: (P2 ++ '/' :: '*' ::
      '*' :: '/' :: '*' :: (pqPat ++ q2 :: ')' :: post))))) =
      some (q1 :: (s3Pat ++ (B ++ '/' :: (P2 ++ '/' :: '*' :: '*' :: '/' :: '*' ::
        (pqPat ++ q2 :: ')' :: post))))) := by
    rw [← hw]
    exact matchCI_of_map w _
  have hs3 : s3Pat.map pyLower = s3Pat := by decide
  have h2 : matchCI s3Pat (s3Pat ++ (B ++ '/' :: (P2 ++ '/' :: '*' :: '*' :: '/' ::
      '*' :: (pqPat ++ q2 :: ')' :: post)))) =
      some (B ++ '/' :: (P2 ++ '/' :: '*' :: '*' :: '/' :: '*' ::
        (pqPat ++ q2 :: ')' :: post))) := by
    conv_lhs => rw [← hs3]
    exact matchCI_of_map s3Pat _
  have h3 := takeBucket_canonical B (P2 ++ '/' :: '*' :: '*' :: '/' :: '*' ::
    (pqPat ++ q2 :: ')' :: post)) hB hBs
  have h4 := findGroup2_canonical q2 post hq2 P2 [] hP hPq
  unfold matchParquetAt
  rw [h1]
  simp only [hq1, if_true]
  rw [h2]
  simp [h3, h4]

theorem str_ext {s t : String} (h : s.data = t.data) : s = t := by
  cases s
  cases t
  exact congrArg String.mk h

theorem scanFuel_irrel (cfg : ConnectionConfig) :
    ∀ (f1 f2 : Nat) (l : List Char), l.length ≤ f1 → l.length ≤ f2 →
      scanFuel cfg f1 l = scanFuel cfg f2 l := by
  intro f1
  induction f1 with
  | zero =>
    intro f2 l h1 _
    have hl : l = [] := List.length_eq_zero.mp (Nat.le_zero.mp h1)
    subst hl
    cases f2 <;> rfl
  | succ n ih =>
    intro f2 l h1 h2
    cases l with
    | nil => cases f2 <;> rfl
    | cons c rest =>
      cases f2 with
      | zero => simp at h2
      | succ m =>
        have hr1 : rest.length ≤ n := by
          simp only [List.length_cons] at h1
          omega
        have hr2 : rest.length ≤ m := by
          simp only [List.length_cons] at h2
          omega
        show (match matchParquetAt (c :: rest) with
              | some (b, p, rest1) =>
                replaceMatch cfg b p ++
                  scanFuel cfg n (rest.drop (rest.length - rest1.length))
              | none => c :: scanFuel cfg n rest) =
             (match matchParquetAt (c :: rest) with
              | some (b, p, rest1) =>
                replaceMatch cfg b p ++
                  scanFuel cfg m (rest.drop (rest.length - rest1.length))
              | none => c :: scanFuel cfg m rest)
        cases hm : matchParquetAt (c :: rest) with
        | none =>
          dsimp only
          rw [ih m rest hr1 hr2]
        | some bp =>
          obtain ⟨b, p, rest1⟩ := bp
          dsimp only
          have hd1 : (rest.drop (rest.length - rest1.length)).length ≤ n := by
            simp only [List.length_drop]
            omega
          have hd2 : (rest.drop (rest.length - rest1.length)).length ≤ m := by
            simp only [List.length_drop]
            omega
          rw [ih m (rest.drop (rest.length - rest1.length)) hd1 hd2]

theorem scanFuel_skip (cfg : ConnectionConfig) :
    ∀ (pre X : List Char),
      (∀ i, i < pre.length → matchParquetAt ((pre ++ X).drop i) = none) →
      scanFuel cfg (pre ++ X).length (pre ++ X) = pre ++ scanFuel cfg X.length X := by
  intro pre
  induction pre with
  | nil => intro X _; simp
  | cons c pre' ih =>
    intro X h
    have h0 : matchParquetAt (c :: (pre' ++ X)) = none := by
      have := h 0 (by simp)
      simpa using this
    have hshift : ∀ i, i < pre'.length →
        matchParquetAt ((pre' ++ X).drop i) = none := by
      intro i hi
      have := h (i + 1) (by simp only [List.length_cons]; omega)
      simpa [List.drop_succ_cons] using this
    show (match matchParquetAt (c :: (pre' ++ X)) with
          | some (b, p, rest1) =>
            replaceMatch cfg b p ++ scanFuel cfg (pre' ++ X).length
              ((pre' ++ X).drop ((pre' ++ X).length - rest1.length))
          | none => c :: scanFuel cfg (pre' ++ X).length (pre' ++ X)) =
         c :: (pre' ++ scanFuel cfg X.length X)
    rw [h0]
    dsimp only
    rw [ih X hshift]

theorem scanFuel_nomatch (cfg : ConnectionConfig) :
    ∀ (l : List Char) (f : Nat), l.length ≤ f →
      (∀ i, i < l.length → matchParquetAt (l.drop i) = none) →
      scanFuel cfg f l = l := by
  intro l
  induction l with
  | nil => intro f _ _; cases f <;> rfl
  | cons c rest ih =>
    intro f hf h
    cases f with
    | zero => simp at hf
    | succ n =>
      have h0 : matchParquetAt (c :: rest) = none := by
        simpa using h 0 (by simp)
      have hr : rest.length ≤ n := by
        simp only [List.length_cons] at hf
        omega
      have hshift : ∀ i, i < rest.length → matchParquetAt (rest.drop i) = none := by
        intro i hi
        have := h (i + 1) (by simp only [List.length_cons]; omega)
        simpa [List.drop_succ_cons] using this
      show (match matchParquetAt (c :: rest) with
            | some (b, p, rest1) =>
              replaceMatch cfg b p ++
                scanFuel cfg n (rest.drop (rest.length - rest1.length))
            | none => c :: scanFuel cfg n rest) = c :: rest
      rw [h0]
      dsimp only
      rw [ih n hr hshift]

theorem scanFuel_match (cfg : ConnectionConfig) (c : Char)
    (rest M post b p : List Char)
    (hl : c :: rest = M ++ post) (hM : M ≠ [])
    (hm : matchParquetAt (c :: rest) = some (b, p, post)) :
    scanFuel cfg (rest.length + 1) (c :: rest) =
      replaceMatch cfg b p ++ scanFuel cfg post.length post := by
  obtain ⟨m0, M', hM'⟩ : ∃ m0 M', M = m0 :: M' := by
    cases M with
    | nil => exact absurd rfl hM
    | cons x xs => exact ⟨x, xs, rfl⟩
  have hrest : rest = M' ++ post := by
    rw [hM', List.cons_append] at hl
    exact ((List.cons.injEq _ _ _ _).mp hl).2
  show (match matchParquetAt (c :: rest) with
        | some (b, p, rest1) =>
          replaceMatch cfg b p ++
            scanFuel cfg rest.length (rest.drop (rest.length - rest1.length))
        | none => c :: scanFuel cfg rest.length rest) =
       replaceMatch cfg b p ++ scanFuel cfg post.length post
  rw [hm]
  dsimp only
  have hdrop : rest.drop (rest.length - post.length) = post := by
    rw [hrest]
    have hlen : (M' ++ post).length - post.length = M'.length := by
      simp [List.length_append]
    rw [hlen, List.drop_left]
  rw [hdrop]
  have hple : post.length ≤ rest.length := by
    rw [hrest]
    simp
  rw [scanFuel_irrel cfg rest.length post.length post hple (Nat.le_refl _)]

/-- Claim C3: scan-reference rewriting.  First half: any occurrence of a
`read_parquet` call (case-insensitive function name `fn`) over
`'s3://B/P/**/*.parquet'` — with bucket `B` slash-free and path `P`
quote-free with no trailing wildcard characters, and no earlier pattern
match starting inside the prefix — is replaced by the catalog-qualified
reference `iceberg_catalog.<namespace>.<final segment of P>` when a REST
catalog is configured, and by `iceberg_scan('s3://B/P')` otherwise, leaving
the prefix unchanged and rewriting the remainder of the query recursively
(hence multiple matches are all rewritten).  Second half: input containing
no match anywhere passes through unchanged. -/
theorem convert_to_iceberg_query_rewrites :
    (∀ (cfg : ConnectionConfig) (pre fn B P post : String),
      (∀ i, i < pre.data.length →
        matchParquetAt ((pre ++ fn ++ "'s3://" ++ B ++ "/" ++ P ++
          "/**/*.parquet')" ++ post).data.drop i) = none) →
      fn.data.map pyLower = rpPat →
      B.data ≠ [] → (∀ c ∈ B.data, c ≠ '/') →
      P.data ≠ [] → (∀ c ∈ P.data, isQuote c = false) →
      pyRstripSet ['/', '*'] P.data = P.data →
      convert_to_iceberg_query cfg
          (pre ++ fn ++ "'s3://" ++ B ++ "/" ++ P ++ "/**/*.parquet')" ++ post) =
        pre ++ (if cfg.catalogType = some "rest" then
            "iceberg_catalog." ++ pyStrOpt cfg.nspace ++ "." ++
              String.mk (lastSegmentL P.data)
          else "iceberg_scan('s3://" ++ B ++ "/" ++ P ++ "')") ++
          convert_to_iceberg_query cfg post) ∧
    (∀ (cfg : ConnectionConfig) (sql : String),
      (∀ i, i < sql.data.length → matchParquetAt (sql.data.drop i) = none) →
      convert_to_iceberg_query cfg sql = sql) := by
  constructor
  · intro cfg pre fn B P post hpre hfn hB hBs hP hPq hPr
    have hq : isQuote '\'' = true := by decide
    have hfnlen : fn.data.length = 13 := by
      have hl := congrArg List.length hfn
      simpa [rpPat] using hl
    obtain ⟨f0, fn', hfd⟩ : ∃ f0 fn', fn.data = f0 :: fn' := by
      cases hc : fn.data with
      | nil => rw [hc] at hfnlen; simp at hfnlen
      | cons a b => exact ⟨a, b, rfl⟩
    have hS : (pre ++ fn ++ "'s3://" ++ B ++ "/" ++ P ++
        "/**/*.parquet')" ++ post).data =
        pre.data ++ (fn.data ++ '\'' :: (s3Pat ++ (B.data ++ '/' :: (P.data ++
          '/' :: '*' :: '*' :: '/' :: '*' ::
            (pqPat ++ '\'' :: ')' :: post.data))))) := by
      simp [String.data_append, s3Pat, pqPat]
    have hm := matchParquetAt_canonical fn.data '\'' '\'' B.data P.data post.data
      hfn hq hq hB hBs hP hPq
    have hpre2 : ∀ i, i < pre.data.length →
        matchParquetAt ((pre.data ++ (fn.data ++ '\'' :: (s3Pat ++ (B.data ++
          '/' :: (P.data ++ '/' :: '*' :: '*' :: '/' :: '*' ::
            (pqPat ++ '\'' :: ')' :: post.data)))))).drop i) = none := by
      intro i hi
      have hh := hpre i hi
      rwa [hS] at hh
    unfold convert_to_iceberg_query
    rw [hS, scanFuel_skip cfg pre.data _ hpre2]
    have hl : f0 :: (fn' ++ '\'' :: (s3Pat ++ (B.data ++ '/' :: (P.data ++
        '/' :: '*' :: '*' :: '/' :: '*' :: (pqPat ++ '\'' :: ')' :: post.data))))) =
        (fn.data ++ '\'' :: (s3Pat ++ (B.data ++ '/' :: (P.data ++
          '/' :: '*' :: '*' :: '/' :: '*' :: (pqPat ++ ['\'', ')']))))) ++
          post.data := by
      rw [hfd]
      simp [List.append_assoc]
    have hMne : (fn.data ++ '\'' :: (s3Pat ++ (B.data ++ '/' :: (P.data ++
        '/' :: '*' :: '*' :: '/' :: '*' :: (pqPat ++ ['\'', ')']))))) ≠ [] := by
      rw [hfd]
      simp
    have hm2 : matchParquetAt (f0 :: (fn' ++ '\'' :: (s3Pat ++ (B.data ++ '/' ::
        (P.data ++ '/' :: '*' :: '*' :: '/' :: '*' ::
          (pqPat ++ '\'' :: ')' :: post.data)))))) =
        some (B.data, P.data, post.data) := by
      rw [hfd] at hm
      simpa [List.cons_append] using hm
    rw [hfd]
    simp only [List.cons_append, List.length_cons]
    rw [scanFuel_match cfg f0 _ _ _ _ _ hl hMne hm2]
    have hrepl : replaceMatch cfg B.data P.data =
        (if cfg.catalogType = some "rest" then
          "iceberg_catalog." ++ pyStrOpt cfg.nspace ++ "." ++
            String.mk (lastSegmentL P.data)
        else "iceberg_scan('s3://" ++ B ++ "/" ++ P ++ "')").data := by
      unfold replaceMatch
      rw [hPr]
      by_cases hcat : cfg.catalogType = some "rest"
      · rw [if_pos hcat, if_pos hcat]
        simp [String.data_append]
      · rw [if_neg hcat, if_neg hcat]
        simp [String.data_append]
    rw [hrepl]
    apply str_ext
    simp [String.data_append, convert_to_iceberg_query, List.append_assoc]
  · intro cfg sql h
    unfold convert_to_iceberg_query
    rw [scanFuel_nomatch cfg sql.data sql.data.length (Nat.le_refl _) h]

/-- Claim C3 witness: a realistic query with a doubly-wildcarded
`read_parquet` scan is rewritten to a direct `iceberg_scan`, and a
pattern-free query passes through unchanged. -/
theorem convert_to_iceberg_query_rewrites_witness :
    (∀ i, i < "SELECT * FROM ".data.length →
      matchParquetAt (("SELECT * FROM " ++ "read_parquet(" ++ "'s3://" ++
        "movies" ++ "/" ++ "data" ++ "/**/*.parquet')" ++
        " ORDER BY startYear").data.drop i) = none) ∧
    "read_parquet(".data.map pyLower = rpPat ∧
    "movies".data ≠ [] ∧ (∀ c ∈ "movies".data, c ≠ '/') ∧
    "data".data ≠ [] ∧ (∀ c ∈ "data".data, isQuote c = false) ∧
    pyRstripSet ['/', '*'] "data".data = "data".data ∧
    convert_to_iceberg_query demo_connection
        ("SELECT * FROM " ++ "read_parquet(" ++ "'s3://" ++ "movies" ++ "/" ++
          "data" ++ "/**/*.parquet')" ++ " ORDER BY startYear") =
      "SELECT * FROM iceberg_scan('s3://movies/data') ORDER BY startYear" ∧
    (∀ i, i < "SELECT 1".data.length →
      matchParquetAt ("SELECT 1".data.drop i) = none) ∧
    convert_to_iceberg_query demo_connection "SELECT 1" = "SELECT 1" :=
  ⟨by decide, by decide, by decide, by decide, by decide, by decide, by decide,
    Eq.trans
      (convert_to_iceberg_query_rewrites.1 demo_connection "SELECT * FROM "
        "read_parquet(" "movies" "data" " ORDER BY startYear"
        (by decide) (by decide) (by decide) (by decide) (by decide) (by decide)
        (by decide))
      (by decide),
    by decide,
    convert_to_iceberg_query_rewrites.2 demo_connection "SELECT 1" (by decide)⟩

end Cloudfloe
